import Mathlib

/-!
Verification of the trading-dashboard simulator, stream formatter, run-id
generator and OHLC aggregation against their natural-language specification.

Numeric values that are IEEE doubles in the source are modelled as exact
rationals; stochastic noise draws and clock readings are explicit parameters.
-/

namespace TradingDashboard

/-- Reflecting bounds around the target (field names follow the source). -/
structure Bounds where
  lower : ℚ
  upper : ℚ
  deriving Repr, DecidableEq

/-- Portfolio split weights. -/
structure Splits where
  part1 : ℚ
  part2 : ℚ
  deriving Repr, DecidableEq

/-- Mutable simulator state (`this.state` in `Simulator`). -/
structure SimState where
  currentValue : ℚ
  target : ℚ
  bounds : Bounds
  splits : Splits
  isRunning : Bool
  runId : String
  deriving Repr, DecidableEq

/-- Simulator configuration constants (`this.config`). -/
structure SimConfig where
  volatility : ℚ
  meanReversionRate : ℚ
  bandWidth : ℚ
  deriving Repr, DecidableEq

/-- Default configuration from the `Simulator` constructor. -/
def defaultConfig : SimConfig :=
  { volatility := 2/100, meanReversionRate := 1/10, bandWidth := 5/100 }

/-- The tick record returned by `getCurrentTickData`. -/
structure TickData where
  timestamp : String
  total_value : ℚ
  part1_value : ℚ
  part2_value : ℚ
  target : ℚ
  bounds : Bounds
  pct_from_target : ℚ
  deriving Repr, DecidableEq

/-- `Simulator.reflect`: bounce a value that left `[lower, upper]` back inside. -/
def reflect (value lower upper : ℚ) : ℚ :=
  if value < lower then lower + (lower - value)
  else if value > upper then upper - (value - upper)
  else value

/-- `Simulator.calculateDrift`: mean reversion `k * (T - current)`. -/
def calculateDrift (cfg : SimConfig) (current target : ℚ) : ℚ :=
  cfg.meanReversionRate * (target - current)

/-- `Simulator.updateBounds`: bounds derived from the target and bandwidth. -/
def updateBounds (cfg : SimConfig) (target : ℚ) : Bounds :=
  { lower := target * (1 - cfg.bandWidth), upper := target * (1 + cfg.bandWidth) }

/-- `Simulator.getCurrentTickData`. The source stamps the record with
`new Date().toISOString()`; the clock reading is the `now` parameter. -/
def getCurrentTickData (s : SimState) (now : String) : TickData :=
  { timestamp := now
    total_value := s.currentValue
    part1_value := s.currentValue * s.splits.part1
    part2_value := s.currentValue * s.splits.part2
    target := s.target
    bounds := s.bounds
    pct_from_target := (s.currentValue - s.target) / s.target * 100 }

/-- `Simulator.generateTick`. The Gaussian draw of `addNoise` is the explicit
`noise` parameter (Box-Muller output times volatility; any rational is a
possible draw). Returns the updated state together with the tick record. -/
def generateTick (cfg : SimConfig) (s : SimState) (noise : ℚ) (now : String) :
    SimState × TickData :=
  if !s.isRunning then
    (s, getCurrentTickData s now)
  else
    let drift := calculateDrift cfg s.currentValue s.target
    let newValue := reflect (s.currentValue + drift + noise) s.bounds.lower s.bounds.upper
    let s' := { s with currentValue := newValue }
    (s', getCurrentTickData s' now)

/-- `Simulator.updateSplits`: throws unless the weights sum to 1 within 1e-4. -/
def updateSplits (s : SimState) (part1 part2 : ℚ) : Except String SimState :=
  if |part1 + part2 - 1| > 1/10000 then
    Except.error "Portfolio splits must sum to 1"
  else
    Except.ok { s with splits := { part1 := part1, part2 := part2 } }

/-- `Simulator.reset`: back to target, running, optionally a new run id.
The source guards the assignment with JavaScript truthiness (`if (newRunId)`),
so an empty string supplied as the new id is not applied. -/
def reset (s : SimState) (newRunId : Option String) : SimState :=
  let s1 := { s with currentValue := s.target, isRunning := true }
  match newRunId with
  | some id => if id = "" then s1 else { s1 with runId := id }
  | none => s1

/-- `Simulator.updateTarget`: replace target, recompute bounds, nothing else. -/
def updateTarget (cfg : SimConfig) (s : SimState) (newTarget : ℚ) : SimState :=
  { s with target := newTarget, bounds := updateBounds cfg newTarget }

/-- A concrete simulator state used to instantiate theorems. -/
def sampleState : SimState :=
  { currentValue := 100
    target := 100
    bounds := { lower := 95, upper := 105 }
    splits := { part1 := 6/10, part2 := 4/10 }
    isRunning := true
    runId := "20240101-000000-aabbccdd" }

/-- The single reflection keeps the result inside `[lower, upper]` exactly when
the candidate overshoots by at most one bound width. -/
theorem reflect_mem_of_overshoot_le (v lower upper : ℚ) (hb : lower ≤ upper)
    (h1 : 2 * lower - upper ≤ v) (h2 : v ≤ 2 * upper - lower) :
    lower ≤ reflect v lower upper ∧ reflect v lower upper ≤ upper := by
  unfold reflect
  split_ifs with hlt hgt
  · exact ⟨by linarith, by linarith⟩
  · exact ⟨by linarith, by linarith⟩
  · exact ⟨not_lt.mp hlt, not_lt.mp hgt⟩

/-- A running state whose candidate value overshoots the upper bound by more
than one bound width, refuting C1: target 1 with the default 5% bandwidth
gives bounds [19/20, 21/20], and a noise draw of 3/5 (a reachable Box-Muller
output at volatility 0.02) sends the candidate to 8/5 whose single reflection
lands at 1/2, below the lower bound. -/
def cexState : SimState :=
  { currentValue := 1
    target := 1
    bounds := updateBounds defaultConfig 1
    splits := { part1 := 6/10, part2 := 4/10 }
    isRunning := true
    runId := "20240101-000000-aabbccdd" }

/-- C1 counterexample: starting in bounds with the bounds active for the
target, one `generateTick` with noise 3/5 produces `currentValue = 1/2`,
strictly below the lower bound 19/20 — the single reflection does not keep
every tick within bounds for every noise draw. -/
theorem C1_counterexample :
    cexState.bounds = updateBounds defaultConfig cexState.target ∧
    cexState.isRunning = true ∧
    cexState.bounds.lower ≤ cexState.currentValue ∧
    cexState.currentValue ≤ cexState.bounds.upper ∧
    (generateTick defaultConfig cexState (3/5) "t").1.currentValue = 1/2 ∧
    (generateTick defaultConfig cexState (3/5) "t").2.total_value = 1/2 ∧
    ¬ (cexState.bounds.lower ≤ (1/2 : ℚ)) := by
  refine ⟨rfl, rfl, ?_, ?_, ?_, ?_, ?_⟩
  · norm_num [cexState, updateBounds, defaultConfig]
  · norm_num [cexState, updateBounds, defaultConfig]
  · norm_num [generateTick, cexState, updateBounds, defaultConfig, calculateDrift,
      reflect, getCurrentTickData]
  · norm_num [generateTick, cexState, updateBounds, defaultConfig, calculateDrift,
      reflect, getCurrentTickData]
  · norm_num [cexState, updateBounds, defaultConfig]

/-- C1 (amended): a generated tick's value stays within the active bounds
whenever the candidate value (current value plus drift plus noise) overshoots
the bounds by at most one bound width; a larger overshoot can escape, as the
single-reflection caveat in the spec notes. -/
theorem C1_generateTick_in_bounds (cfg : SimConfig) (s : SimState) (noise : ℚ)
    (now : String)
    (hrun : s.isRunning = true)
    (hb : s.bounds.lower ≤ s.bounds.upper)
    (hlo : 2 * s.bounds.lower - s.bounds.upper ≤
      s.currentValue + calculateDrift cfg s.currentValue s.target + noise)
    (hhi : s.currentValue + calculateDrift cfg s.currentValue s.target + noise ≤
      2 * s.bounds.upper - s.bounds.lower) :
    s.bounds.lower ≤ (generateTick cfg s noise now).1.currentValue ∧
    (generateTick cfg s noise now).1.currentValue ≤ s.bounds.upper ∧
    (generateTick cfg s noise now).2.total_value =
      (generateTick cfg s noise now).1.currentValue := by
  have hm := reflect_mem_of_overshoot_le
    (s.currentValue + calculateDrift cfg s.currentValue s.target + noise)
    s.bounds.lower s.bounds.upper hb hlo hhi
  simp only [generateTick, hrun, Bool.not_true, Bool.false_eq_true, if_false,
    getCurrentTickData]
  exact ⟨hm.1, hm.2, trivial⟩

/-- Witness for C1 (amended) at the sample state with noise 3: candidate 103
is within one bound width, and the tick lands inside [95, 105]. -/
theorem C1_witness :
    sampleState.isRunning = true ∧
    sampleState.bounds.lower ≤ (generateTick defaultConfig sampleState 3 "t").1.currentValue ∧
    (generateTick defaultConfig sampleState 3 "t").1.currentValue ≤ sampleState.bounds.upper := by
  have h := C1_generateTick_in_bounds defaultConfig sampleState 3 "t" rfl
    (by norm_num [sampleState])
    (by norm_num [sampleState, defaultConfig, calculateDrift])
    (by norm_num [sampleState, defaultConfig, calculateDrift])
  exact ⟨rfl, h.1, h.2.1⟩

/-- The sample state, paused. -/
def pausedState : SimState :=
  { sampleState with isRunning := false }

/-- C2 counterexample: with the simulator paused, two `generateTick` calls at
different clock readings return tick records that differ (in `timestamp`,
which the source recomputes from `new Date()` on every call), so the full
display record is not unchanged call to call. -/
theorem C2_counterexample :
    pausedState.isRunning = false ∧
    (generateTick defaultConfig pausedState 0 "2024-01-01T00:00:00.000Z").2 ≠
      (generateTick defaultConfig pausedState 0 "2024-01-01T00:00:01.000Z").2 := by
  refine ⟨rfl, fun h => ?_⟩
  have ht := congrArg TickData.timestamp h
  simp only [generateTick, pausedState, getCurrentTickData] at ht
  exact absurd ht (by decide)

/-- C2 (amended): while paused, `generateTick` leaves the simulator state
unchanged and independent of the noise draw, and every field of the returned
tick except `timestamp` is unchanged from call to call; `timestamp` is the
clock reading of the call. -/
theorem C2_paused_no_update (cfg : SimConfig) (s : SimState) (n1 n2 : ℚ)
    (t1 t2 : String) (h : s.isRunning = false) :
    (generateTick cfg s n1 t1).1 = s ∧
    (generateTick cfg s n2 t2).1 = s ∧
    (generateTick cfg s n1 t1).2.timestamp = t1 ∧
    (generateTick cfg s n2 t2).2.timestamp = t2 ∧
    (generateTick cfg s n1 t1).2.total_value = (generateTick cfg s n2 t2).2.total_value ∧
    (generateTick cfg s n1 t1).2.part1_value = (generateTick cfg s n2 t2).2.part1_value ∧
    (generateTick cfg s n1 t1).2.part2_value = (generateTick cfg s n2 t2).2.part2_value ∧
    (generateTick cfg s n1 t1).2.target = (generateTick cfg s n2 t2).2.target ∧
    (generateTick cfg s n1 t1).2.bounds = (generateTick cfg s n2 t2).2.bounds ∧
    (generateTick cfg s n1 t1).2.pct_from_target =
      (generateTick cfg s n2 t2).2.pct_from_target := by
  simp [generateTick, h, getCurrentTickData]

/-- Witness for C2 (amended) at the paused sample state. -/
theorem C2_witness :
    pausedState.isRunning = false ∧
    (generateTick defaultConfig pausedState 7 "t1").1 = pausedState ∧
    (generateTick defaultConfig pausedState 7 "t1").2.total_value =
      (generateTick defaultConfig pausedState (-4) "t2").2.total_value := by
  have h := C2_paused_no_update defaultConfig pausedState 7 (-4) "t1" "t2" rfl
  exact ⟨rfl, h.1, h.2.2.2.2.1⟩

/-- C3: the reflection step maps a candidate below the lower bound to
`lower + (lower - v)`, a candidate above the upper bound to
`upper - (v - upper)`, and leaves an in-range candidate unchanged; with
bounds [95, 105] a candidate 107 reflects to 103 and 92 reflects to 98. -/
theorem C3_reflect_cases (v lower upper : ℚ) (hb : lower ≤ upper) :
    (v < lower → reflect v lower upper = lower + (lower - v)) ∧
    (upper < v → reflect v lower upper = upper - (v - upper)) ∧
    (lower ≤ v → v ≤ upper → reflect v lower upper = v) ∧
    reflect 107 95 105 = 103 ∧ reflect 92 95 105 = 98 := by
  refine ⟨?_, ?_, ?_, by norm_num [reflect], by norm_num [reflect]⟩
  · intro h
    simp [reflect, h]
  · intro h
    have h1 : ¬ v < lower := not_lt.mpr (le_trans hb (le_of_lt h))
    simp [reflect, h1, h]
  · intro h1 h2
    simp [reflect, not_lt.mpr h1, not_lt.mpr h2]

/-- Witness for C3 at the spec scenario (candidate 107 over bounds [95, 105]). -/
theorem C3_witness :
    (105 : ℚ) < 107 ∧ reflect 107 95 105 = 105 - (107 - 105) :=
  ⟨by norm_num, (C3_reflect_cases 107 95 105 (by norm_num)).2.1 (by norm_num)⟩

/-- C4: `updateSplits` rejects weights whose sum is off by more than 1e-4
with the validation error and leaves the state untouched, and accepts any
pair within tolerance, replacing both weights together. -/
theorem C4_updateSplits_validation (s : SimState) (w1 w2 : ℚ) :
    (|w1 + w2 - 1| > 1/10000 →
      updateSplits s w1 w2 = Except.error "Portfolio splits must sum to 1") ∧
    (|w1 + w2 - 1| ≤ 1/10000 →
      updateSplits s w1 w2 =
        Except.ok { s with splits := { part1 := w1, part2 := w2 } }) := by
  constructor
  · intro h
    rw [updateSplits, if_pos h]
  · intro h
    rw [updateSplits, if_neg (not_lt.mpr h)]

/-- Witness for C4 at the spec scenario `updateSplits(0.5, 0.6)`. -/
theorem C4_witness :
    |(1/2 : ℚ) + 3/5 - 1| > 1/10000 ∧
    updateSplits sampleState (1/2) (3/5) =
      Except.error "Portfolio splits must sum to 1" :=
  ⟨lt_abs.mpr (Or.inl (by norm_num)),
    (C4_updateSplits_validation sampleState (1/2) (3/5)).1
      (lt_abs.mpr (Or.inl (by norm_num)))⟩

/-- C5 counterexample: the empty string is a supplied run-identity argument,
yet `reset` does not replace the run identity with it (JavaScript truthiness
guard `if (newRunId)`), so "replaces the run identity exactly when a new run
identity argument is supplied" fails at `some ""`. -/
theorem C5_counterexample :
    (reset sampleState (some "")).runId = "20240101-000000-aabbccdd" ∧
    "20240101-000000-aabbccdd" ≠ "" := by
  constructor
  · rfl
  · decide

/-- C5 (amended): `reset` sets `currentValue` exactly to the target, marks the
state running, leaves target, bounds and split weights unchanged, and replaces
the run identity exactly when a supplied new identity is non-empty. -/
theorem C5_reset_spec (s : SimState) (o : Option String) :
    (reset s o).currentValue = s.target ∧
    (reset s o).isRunning = true ∧
    (reset s o).target = s.target ∧
    (reset s o).bounds = s.bounds ∧
    (reset s o).splits = s.splits ∧
    (reset s o).runId =
      (match o with
       | some id => if id = "" then s.runId else id
       | none => s.runId) := by
  cases o with
  | none => exact ⟨rfl, rfl, rfl, rfl, rfl, rfl⟩
  | some id =>
    by_cases h : id = ""
    · simp [reset, h]
    · simp [reset, h]

/-- C10: `updateSplits` checks only the sum of the weights, so a pair within
tolerance is accepted even when one weight is negative or exceeds 1, and the
tick computed from the updated state carries `total * w2` as its second part
value (negative when `w2 < 0` and the total is positive). -/
theorem C10_sum_only_validation (s : SimState) (w1 w2 : ℚ)
    (h : |w1 + w2 - 1| ≤ 1/10000) :
    updateSplits s w1 w2 =
      Except.ok { s with splits := { part1 := w1, part2 := w2 } } ∧
    ∀ now : String,
      (getCurrentTickData { s with splits := { part1 := w1, part2 := w2 } } now).part2_value
        = s.currentValue * w2 := by
  refine ⟨?_, fun now => rfl⟩
  rw [updateSplits, if_neg (not_lt.mpr h)]

/-- Witness for C10 at `updateSplits(1.5, -0.5)`: accepted, and the resulting
tick's `part2_value` is negative. -/
theorem C10_witness :
    |(3/2 : ℚ) + (-1/2) - 1| ≤ 1/10000 ∧
    updateSplits sampleState (3/2) (-1/2) =
      Except.ok { sampleState with splits := { part1 := 3/2, part2 := -1/2 } } ∧
    (getCurrentTickData
      { sampleState with splits := { part1 := 3/2, part2 := -1/2 } } "t").part2_value
      = -50 ∧
    (-50 : ℚ) < 0 := by
  have h := C10_sum_only_validation sampleState (3/2) (-1/2)
    (abs_le.mpr ⟨by norm_num, by norm_num⟩)
  refine ⟨abs_le.mpr ⟨by norm_num, by norm_num⟩, h.1, ?_, by norm_num⟩
  rw [h.2 "t"]
  norm_num [sampleState]

/-- The sample state with the largest split-sum deviation that `updateSplits`
still accepts (weights 1/2 and 5001/10000, sum 1.0001). -/
def edgeSplitState : SimState :=
  { sampleState with splits := { part1 := 1/2, part2 := 5001/10000 } }

/-- C6 counterexample: the weights (0.5, 0.5001) pass the 1e-4 sum tolerance
of `updateSplits`, yet on a tick with total value 100 the parts sum to 100.01,
off from the total by 0.01, far beyond the claimed 1e-9 tolerance. -/
theorem C6_counterexample :
    updateSplits sampleState (1/2) (5001/10000) = Except.ok edgeSplitState ∧
    (getCurrentTickData edgeSplitState "t").total_value = 100 ∧
    (getCurrentTickData edgeSplitState "t").part1_value +
        (getCurrentTickData edgeSplitState "t").part2_value -
        (getCurrentTickData edgeSplitState "t").total_value = 1/100 ∧
    ¬ (|(1 : ℚ)/100| ≤ 1/1000000000) := by
  refine ⟨?_, rfl, ?_, ?_⟩
  · rw [updateSplits, if_neg]
    · rfl
    · rw [not_lt]
      exact abs_le.mpr ⟨by norm_num, by norm_num⟩
  · norm_num [getCurrentTickData, edgeSplitState, sampleState]
  · rw [abs_of_nonneg (by norm_num)]
    norm_num

/-- C6 (amended): on every tick the two part values sum to
`total_value * (w1 + w2)` exactly; for any weights accepted by the 1e-4
tolerance the deviation of the part sum from the total is at most
`|total_value| * 1e-4` (not 1e-9), and it is exactly zero when the weights
sum to exactly 1. -/
theorem C6_parts_sum (s : SimState) (now : String)
    (h : |s.splits.part1 + s.splits.part2 - 1| ≤ 1/10000) :
    (getCurrentTickData s now).part1_value + (getCurrentTickData s now).part2_value
      = (getCurrentTickData s now).total_value * (s.splits.part1 + s.splits.part2) ∧
    |(getCurrentTickData s now).part1_value + (getCurrentTickData s now).part2_value
      - (getCurrentTickData s now).total_value|
      ≤ |(getCurrentTickData s now).total_value| / 10000 ∧
    (s.splits.part1 + s.splits.part2 = 1 →
      (getCurrentTickData s now).part1_value + (getCurrentTickData s now).part2_value
        = (getCurrentTickData s now).total_value) := by
  refine ⟨by simp [getCurrentTickData]; ring, ?_, ?_⟩
  · have he : (getCurrentTickData s now).part1_value + (getCurrentTickData s now).part2_value
        - (getCurrentTickData s now).total_value
        = s.currentValue * (s.splits.part1 + s.splits.part2 - 1) := by
      simp [getCurrentTickData]
      ring
    rw [he, abs_mul]
    have h0 : |s.currentValue| * |s.splits.part1 + s.splits.part2 - 1|
        ≤ |s.currentValue| * (1/10000) :=
      mul_le_mul_of_nonneg_left h (abs_nonneg _)
    calc |s.currentValue| * |s.splits.part1 + s.splits.part2 - 1|
        ≤ |s.currentValue| * (1/10000) := h0
      _ = |(getCurrentTickData s now).total_value| / 10000 := by
          simp [getCurrentTickData]
          ring
  · intro h1
    simp [getCurrentTickData, ← mul_add, h1]

/-- Witness for C6 (amended) at the sample state (weights 0.6 and 0.4,
summing to 1 exactly, total 100). -/
theorem C6_witness :
    |sampleState.splits.part1 + sampleState.splits.part2 - 1| ≤ 1/10000 ∧
    (getCurrentTickData sampleState "t").part1_value +
      (getCurrentTickData sampleState "t").part2_value =
      (getCurrentTickData sampleState "t").total_value := by
  have h := C6_parts_sum sampleState "t"
    (abs_le.mpr ⟨by norm_num [sampleState], by norm_num [sampleState]⟩)
  exact ⟨abs_le.mpr ⟨by norm_num [sampleState], by norm_num [sampleState]⟩,
    h.2.2 (by norm_num [sampleState])⟩

/-- `generateRunId` from the control endpoint: `YYYYMMDD-HHMMSS-RANDOM`.
The clock reading (date and time components, second granularity) and the
`randomBytes(4).toString(hex)` draw are explicit parameters. -/
def generateRunId (dateStr timeStr randomStr : String) : String :=
  dateStr ++ "-" ++ timeStr ++ "-" ++ randomStr

/-- Strings with equal character data are equal. -/
theorem string_eq_of_data_eq (a b : String) (h : a.data = b.data) : a = b := by
  cases a
  cases b
  exact congrArg String.mk (by simpa using h)

/-- C8 counterexample: `generateRunId` keeps no state and performs no
uniqueness check, so two invocations in the same second whose 4-byte random
draws coincide produce the identical run id — distinctness of every pair of
invocations is not guaranteed. -/
theorem C8_counterexample :
    generateRunId "20240101" "120000" "aabbccdd" = "20240101-120000-aabbccdd" ∧
    ¬ (generateRunId "20240101" "120000" "aabbccdd" ≠
        generateRunId "20240101" "120000" "aabbccdd") := by
  exact ⟨rfl, fun h => h rfl⟩

/-- C8 (amended): given the fixed component widths the source always emits
(8-character `YYYYMMDD` date, 6-character `HHMMSS` time), two generated run
ids are equal exactly when their (date, time, random-suffix) triples are
equal — so two same-second invocations are distinct exactly when their 4-byte
random suffixes differ, and uniqueness is probabilistic, not guaranteed. -/
theorem C8_runId_distinct_iff (d1 t1 r1 d2 t2 r2 : String)
    (hd1 : d1.length = 8) (hd2 : d2.length = 8)
    (ht1 : t1.length = 6) (ht2 : t2.length = 6) :
    generateRunId d1 t1 r1 = generateRunId d2 t2 r2 ↔
      d1 = d2 ∧ t1 = t2 ∧ r1 = r2 := by
  constructor
  · intro h
    have hdata := congrArg String.data h
    simp only [generateRunId, String.data_append, List.append_assoc] at hdata
    have hdlen : d1.data.length = d2.data.length := by
      rw [show d1.data.length = d1.length from rfl,
        show d2.data.length = d2.length from rfl, hd1, hd2]
    have h1 := List.append_inj hdata hdlen
    have h2 : t1.data ++ ("-".data ++ r1.data) = t2.data ++ ("-".data ++ r2.data) := by
      have := h1.2
      simpa using this
    have htlen : t1.data.length = t2.data.length := by
      rw [show t1.data.length = t1.length from rfl,
        show t2.data.length = t2.length from rfl, ht1, ht2]
    have h3 := List.append_inj h2 htlen
    have h4 : r1.data = r2.data := by
      have := h3.2
      simpa using this
    exact ⟨string_eq_of_data_eq d1 d2 h1.1, string_eq_of_data_eq t1 t2 h3.1,
      string_eq_of_data_eq r1 r2 h4⟩
  · rintro ⟨rfl, rfl, rfl⟩
    rfl

/-- Witness for C8 (amended): concrete same-second ids with differing random
suffixes are distinct, via the biconditional at inputs of the emitted widths. -/
theorem C8_witness :
    ("20240101" : String).length = 8 ∧ ("120000" : String).length = 6 ∧
    (generateRunId "20240101" "120000" "aabbccdd" =
        generateRunId "20240101" "120000" "aabbccde" ↔
      ("20240101" : String) = "20240101" ∧ ("120000" : String) = "120000" ∧
        ("aabbccdd" : String) = "aabbccde") ∧
    generateRunId "20240101" "120000" "aabbccdd" ≠
      generateRunId "20240101" "120000" "aabbccde" := by
  have h := C8_runId_distinct_iff "20240101" "120000" "aabbccdd"
    "20240101" "120000" "aabbccde" (by decide) (by decide) (by decide) (by decide)
  refine ⟨by decide, by decide, h, fun he => ?_⟩
  exact absurd (h.mp he).2.2 (by decide)

/-- Rounding to `n` decimal places, the rational model of
`Number(x.toFixed(n))` (round to nearest, ties toward positive infinity,
as the ECMAScript `toFixed` tie rule picks the larger candidate). -/
def roundTo (x : ℚ) (n : ℕ) : ℚ :=
  (round (x * 10 ^ n) : ℚ) / 10 ^ n

/-- The tick payload pushed to stream observers. -/
structure StreamTick where
  timestamp : String
  total_value : ℚ
  part1_value : ℚ
  part2_value : ℚ
  target : ℚ
  bounds : Bounds
  pct_from_target : ℚ
  client_count : ℕ
  deriving Repr, DecidableEq

/-- `formatTickForStream` from `src/api/stream.ts`: every numeric field is
passed through `toFixed(8)` except `pct_from_target`, which the source passes
through `toFixed(4)`. -/
def formatTickForStream (t : TickData) (clientCount : ℕ) : StreamTick :=
  { timestamp := t.timestamp
    total_value := roundTo t.total_value 8
    part1_value := roundTo t.part1_value 8
    part2_value := roundTo t.part2_value 8
    target := roundTo t.target 8
    bounds := { lower := roundTo t.bounds.lower 8, upper := roundTo t.bounds.upper 8 }
    pct_from_target := roundTo t.pct_from_target 4
    client_count := clientCount }

/-- `roundTo` produces an integer multiple of `10 ^ (-n)`. -/
theorem roundTo_exists_int (x : ℚ) (n : ℕ) : ∃ k : ℤ, roundTo x n = k / 10 ^ n :=
  ⟨round (x * 10 ^ n), rfl⟩

/-- `roundTo` moves a value by at most half of the last kept decimal place. -/
theorem abs_roundTo_sub_le (x : ℚ) (n : ℕ) : |roundTo x n - x| ≤ 1 / (2 * 10 ^ n) := by
  have h10 : (0 : ℚ) < 10 ^ n := by positivity
  have h : |x * 10 ^ n - (round (x * 10 ^ n) : ℚ)| ≤ 1 / 2 := abs_sub_round _
  have he : roundTo x n - x = ((round (x * 10 ^ n) : ℚ) - x * 10 ^ n) / 10 ^ n := by
    rw [roundTo]
    field_simp
    ring
  rw [he, abs_div, abs_of_pos h10, div_le_div_iff₀ h10 (by positivity)]
  rw [abs_sub_comm] at h
  nlinarith [abs_nonneg ((round (x * 10 ^ n) : ℚ) - x * 10 ^ n)]

/-- A state whose tick has `pct_from_target = 0.00001`, which survives
8-place rounding but is flattened to 0 by the 4-place rounding the source
applies to that field. -/
def cexState9 : SimState :=
  { sampleState with currentValue := 10000001/100000 }

/-- C9 counterexample: the streamed payload's `pct_from_target` is rounded to
4 decimal places, not 8 — a tick with `pct_from_target = 0.00001` streams as
0, while an 8-place rounding would have preserved 0.00001. -/
theorem C9_counterexample :
    (getCurrentTickData cexState9 "t").pct_from_target = 1/100000 ∧
    (formatTickForStream (getCurrentTickData cexState9 "t") 0).pct_from_target = 0 ∧
    roundTo (1/100000) 8 = 1/100000 ∧
    (0 : ℚ) ≠ roundTo (1/100000) 8 := by
  refine ⟨?_, ?_, ?_, ?_⟩
  · norm_num [getCurrentTickData, cexState9, sampleState]
  · norm_num [formatTickForStream, roundTo, round_eq, getCurrentTickData,
      cexState9, sampleState]
  · norm_num [roundTo, round_eq]
  · norm_num [roundTo, round_eq]

/-- C9 (amended): in every streamed tick payload the fields `total_value`,
`part1_value`, `part2_value`, `target`, `bounds.lower` and `bounds.upper` are
rounded to exactly 8 decimal places (each is an integer multiple of `10⁻⁸`
within half a unit of it), while `pct_from_target` is rounded to 4 decimal
places; the timestamp and client count pass through unchanged. -/
theorem C9_stream_rounding (t : TickData) (c : ℕ) :
    (∃ k : ℤ, (formatTickForStream t c).total_value = k / 10 ^ 8) ∧
    |(formatTickForStream t c).total_value - t.total_value| ≤ 1 / (2 * 10 ^ 8) ∧
    (∃ k : ℤ, (formatTickForStream t c).part1_value = k / 10 ^ 8) ∧
    |(formatTickForStream t c).part1_value - t.part1_value| ≤ 1 / (2 * 10 ^ 8) ∧
    (∃ k : ℤ, (formatTickForStream t c).part2_value = k / 10 ^ 8) ∧
    |(formatTickForStream t c).part2_value - t.part2_value| ≤ 1 / (2 * 10 ^ 8) ∧
    (∃ k : ℤ, (formatTickForStream t c).target = k / 10 ^ 8) ∧
    |(formatTickForStream t c).target - t.target| ≤ 1 / (2 * 10 ^ 8) ∧
    (∃ k : ℤ, (formatTickForStream t c).bounds.lower = k / 10 ^ 8) ∧
    |(formatTickForStream t c).bounds.lower - t.bounds.lower| ≤ 1 / (2 * 10 ^ 8) ∧
    (∃ k : ℤ, (formatTickForStream t c).bounds.upper = k / 10 ^ 8) ∧
    |(formatTickForStream t c).bounds.upper - t.bounds.upper| ≤ 1 / (2 * 10 ^ 8) ∧
    (formatTickForStream t c).pct_from_target = roundTo t.pct_from_target 4 ∧
    |(formatTickForStream t c).pct_from_target - t.pct_from_target| ≤ 1 / (2 * 10 ^ 4) ∧
    (formatTickForStream t c).timestamp = t.timestamp ∧
    (formatTickForStream t c).client_count = c :=
  ⟨roundTo_exists_int t.total_value 8, abs_roundTo_sub_le t.total_value 8,
    roundTo_exists_int t.part1_value 8, abs_roundTo_sub_le t.part1_value 8,
    roundTo_exists_int t.part2_value 8, abs_roundTo_sub_le t.part2_value 8,
    roundTo_exists_int t.target 8, abs_roundTo_sub_le t.target 8,
    roundTo_exists_int t.bounds.lower 8, abs_roundTo_sub_le t.bounds.lower 8,
    roundTo_exists_int t.bounds.upper 8, abs_roundTo_sub_le t.bounds.upper 8,
    rfl, abs_roundTo_sub_le t.pct_from_target 4, rfl, rfl⟩

/-- An OHLC bucket record (field names follow the Aggregate database type). -/
structure OHLCAgg where
  open_value : ℚ
  high_value : ℚ
  low_value : ℚ
  close_value : ℚ
  tick_count : ℕ
  deriving Repr, DecidableEq

/-- Modelled from the spec: the Aggregator's OHLC bucket fold. The job code
(`src/jobs`) is absent from the provided sources — only its API callers and
the Aggregate record type appear — so the fold is taken from the spec's
words: input is the bucket's ticks in timestamp order; output has open = the
first tick's value, close = the last tick's value, high/low = max/min across
the window, tick_count = the number of ticks folded; a bucket with zero ticks
is not emitted. -/
def aggregateBucket : List ℚ → Option OHLCAgg
  | [] => none
  | t :: ts =>
    some { open_value := t
           high_value := ts.foldl max t
           low_value := ts.foldl min t
           close_value := (t :: ts).getLast (List.cons_ne_nil t ts)
           tick_count := (t :: ts).length }

/-- The running maximum of a fold is an element of the folded list. -/
theorem foldl_max_mem (t : ℚ) (ts : List ℚ) : ts.foldl max t ∈ t :: ts := by
  induction ts generalizing t with
  | nil => simp
  | cons a as ih =>
    simp only [List.foldl_cons]
    rcases max_choice t a with hm | hm <;> rw [hm]
    · rcases List.mem_cons.mp (ih t) with h1 | h1 <;> simp [h1]
    · rcases List.mem_cons.mp (ih a) with h1 | h1 <;> simp [h1]

/-- Every element of the folded list is bounded by the running maximum. -/
theorem le_foldl_max (t : ℚ) (ts : List ℚ) : ∀ x ∈ t :: ts, x ≤ ts.foldl max t := by
  induction ts generalizing t with
  | nil =>
    intro x hx
    simp only [List.mem_singleton] at hx
    simp [hx]
  | cons a as ih =>
    intro x hx
    simp only [List.foldl_cons]
    rcases List.mem_cons.mp hx with rfl | hx1
    · exact le_trans (le_max_left x a) (ih (max x a) _ (List.mem_cons_self _ _))
    · rcases List.mem_cons.mp hx1 with rfl | hx2
      · exact le_trans (le_max_right t x) (ih (max t x) _ (List.mem_cons_self _ _))
      · exact ih (max t a) x (List.mem_cons_of_mem _ hx2)

/-- The running minimum of a fold is an element of the folded list. -/
theorem foldl_min_mem (t : ℚ) (ts : List ℚ) : ts.foldl min t ∈ t :: ts := by
  induction ts generalizing t with
  | nil => simp
  | cons a as ih =>
    simp only [List.foldl_cons]
    rcases min_choice t a with hm | hm <;> rw [hm]
    · rcases List.mem_cons.mp (ih t) with h1 | h1 <;> simp [h1]
    · rcases List.mem_cons.mp (ih a) with h1 | h1 <;> simp [h1]

/-- The running minimum bounds every element of the folded list. -/
theorem foldl_min_le (t : ℚ) (ts : List ℚ) : ∀ x ∈ t :: ts, ts.foldl min t ≤ x := by
  induction ts generalizing t with
  | nil =>
    intro x hx
    simp only [List.mem_singleton] at hx
    simp [hx]
  | cons a as ih =>
    intro x hx
    simp only [List.foldl_cons]
    rcases List.mem_cons.mp hx with rfl | hx1
    · exact le_trans (ih (min x a) _ (List.mem_cons_self _ _)) (min_le_left x a)
    · rcases List.mem_cons.mp hx1 with rfl | hx2
      · exact le_trans (ih (min t x) _ (List.mem_cons_self _ _)) (min_le_right t x)
      · exact ih (min t a) x (List.mem_cons_of_mem _ hx2)

/-- The high of a bucket is invariant under permutation of its ticks. -/
theorem aggregateBucket_high_perm {l1 l2 : List ℚ} (p : l1.Perm l2) :
    (aggregateBucket l1).map OHLCAgg.high_value
      = (aggregateBucket l2).map OHLCAgg.high_value := by
  cases l1 with
  | nil =>
    rw [List.Perm.eq_nil p.symm]
  | cons a as =>
    cases l2 with
    | nil => exact absurd (List.Perm.eq_nil p) (List.cons_ne_nil a as)
    | cons b bs =>
      have h1 : as.foldl max a ≤ bs.foldl max b :=
        le_foldl_max b bs _ (p.mem_iff.mp (foldl_max_mem a as))
      have h2 : bs.foldl max b ≤ as.foldl max a :=
        le_foldl_max a as _ (p.symm.mem_iff.mp (foldl_max_mem b bs))
      simp [aggregateBucket, le_antisymm h1 h2]

/-- The low of a bucket is invariant under permutation of its ticks. -/
theorem aggregateBucket_low_perm {l1 l2 : List ℚ} (p : l1.Perm l2) :
    (aggregateBucket l1).map OHLCAgg.low_value
      = (aggregateBucket l2).map OHLCAgg.low_value := by
  cases l1 with
  | nil =>
    rw [List.Perm.eq_nil p.symm]
  | cons a as =>
    cases l2 with
    | nil => exact absurd (List.Perm.eq_nil p) (List.cons_ne_nil a as)
    | cons b bs =>
      have h1 : bs.foldl min b ≤ as.foldl min a :=
        foldl_min_le b bs _ (p.mem_iff.mp (foldl_min_mem a as))
      have h2 : as.foldl min a ≤ bs.foldl min b :=
        foldl_min_le a as _ (p.symm.mem_iff.mp (foldl_min_mem b bs))
      simp [aggregateBucket, le_antisymm h2 h1]

/-- The tick count of a bucket is invariant under permutation of its ticks. -/
theorem aggregateBucket_count_perm {l1 l2 : List ℚ} (p : l1.Perm l2) :
    (aggregateBucket l1).map OHLCAgg.tick_count
      = (aggregateBucket l2).map OHLCAgg.tick_count := by
  cases l1 with
  | nil =>
    rw [List.Perm.eq_nil p.symm]
  | cons a as =>
    cases l2 with
    | nil => exact absurd (List.Perm.eq_nil p) (List.cons_ne_nil a as)
    | cons b bs =>
      simp [aggregateBucket, p.length_eq]

/-- C7: the OHLC aggregation is a pure fold with open = first tick, close =
last tick, high/low = max/min over the window, and tick_count = the number of
ticks; an empty bucket emits nothing; the same tick list always folds to the
identical record; high, low and tick_count are invariant under any
permutation of the ticks, while open and close are order-dependent (the lists
[1, 2] and [2, 1] give different opens and closes). -/
theorem C7_aggregation_fold {l1 l2 : List ℚ} (p : l1.Perm l2) :
    aggregateBucket ([] : List ℚ) = none ∧
    (∀ t ts, ∃ a, aggregateBucket (t :: ts) = some a ∧
      a.open_value = t ∧
      a.close_value = (t :: ts).getLast (List.cons_ne_nil t ts) ∧
      a.tick_count = ts.length + 1 ∧
      a.high_value ∈ t :: ts ∧ (∀ x ∈ t :: ts, x ≤ a.high_value) ∧
      a.low_value ∈ t :: ts ∧ (∀ x ∈ t :: ts, a.low_value ≤ x)) ∧
    aggregateBucket l1 = aggregateBucket l1 ∧
    (aggregateBucket l1).map OHLCAgg.high_value
      = (aggregateBucket l2).map OHLCAgg.high_value ∧
    (aggregateBucket l1).map OHLCAgg.low_value
      = (aggregateBucket l2).map OHLCAgg.low_value ∧
    (aggregateBucket l1).map OHLCAgg.tick_count
      = (aggregateBucket l2).map OHLCAgg.tick_count ∧
    (aggregateBucket [1, 2]).map OHLCAgg.open_value = some 1 ∧
    (aggregateBucket [2, 1]).map OHLCAgg.open_value = some 2 ∧
    (aggregateBucket [1, 2]).map OHLCAgg.close_value = some 2 ∧
    (aggregateBucket [2, 1]).map OHLCAgg.close_value = some 1 := by
  refine ⟨rfl, ?_, rfl, aggregateBucket_high_perm p, aggregateBucket_low_perm p,
    aggregateBucket_count_perm p, rfl, rfl, rfl, rfl⟩
  intro t ts
  refine ⟨_, rfl, rfl, rfl, by simp [aggregateBucket], foldl_max_mem t ts,
    le_foldl_max t ts, foldl_min_mem t ts, foldl_min_le t ts⟩

/-- Witness for C7 at the permutation [1, 2] ~ [2, 1]: high, low and count
agree across the reordering. -/
theorem C7_witness :
    List.Perm [(1 : ℚ), 2] [2, 1] ∧
    (aggregateBucket [(1 : ℚ), 2]).map OHLCAgg.high_value
      = (aggregateBucket [(2 : ℚ), 1]).map OHLCAgg.high_value ∧
    (aggregateBucket [(1 : ℚ), 2]).map OHLCAgg.high_value = some 2 := by
  have h := C7_aggregation_fold (List.Perm.swap (2 : ℚ) 1 [])
  exact ⟨List.Perm.swap 2 1 [], h.2.2.2.1, by simp [aggregateBucket]⟩

end TradingDashboard
